import Mathlib

/-!
Verification of the ssim-video-optimizer repository core logic.

The repository's algorithmic core (QP binary search, sample-time selection,
audio-option construction, SSIM report parsing, and the CLI's full-file
verification loop) is shallowly embedded below.  External collaborators
(ffmpeg/ffprobe invocations) are abstracted as function parameters:
an evaluator `Int → ℚ` stands for the sample-aggregated SSIM measurement at a
given QP, and similarity scores are modelled as rationals (the code treats the
parsed score as an opaque ordered number).  Python integers are `Int`
(Python's `//` on a nonnegative divisor is `Int.ediv`, written `/` below),
Python lists are `List`, and text is modelled as lists of characters.
-/

namespace SsimOpt

/-! ### QP binary search — `ssim_video_optimizer/ssim_search.py`, `find_best_qp`

The Python loop
```
low, high = min_qp, max_qp
best = high if measure_ssim(high, ...) >= target_ssim else low
while high - low > 1:
    mid = (low + high) // 2
    if measure_ssim(mid, ...) >= target_ssim:
        best, low = mid, mid
    else:
        high = mid
return best
```
is embedded with the evaluator `measure_ssim(·)` abstracted as `ev : Int → ℚ`.
-/

/-- The `while high - low > 1` loop of `find_best_qp`. -/
def searchLoop (ev : Int → ℚ) (target : ℚ) (low high best : Int) : Int :=
  if h : 1 < high - low then
    if ev ((low + high) / 2) ≥ target then
      searchLoop ev target ((low + high) / 2) high ((low + high) / 2)
    else
      searchLoop ev target low ((low + high) / 2) best
  else best
termination_by (high - low).toNat
decreasing_by
· omega
· omega

/-- `find_best_qp` from `ssim_search.py`: seed `best` from the probe at
`max_qp`, then run the binary-search loop. -/
def find_best_qp (ev : Int → ℚ) (min_qp max_qp : Int) (target : ℚ) : Int :=
  searchLoop ev target min_qp max_qp (if ev max_qp ≥ target then max_qp else min_qp)

/-- One observation point of the search: the `(low, high, best)` state at a
check of the loop condition. -/
structure SState where
  low : Int
  high : Int
  best : Int
deriving DecidableEq

/-- Instrumented run of the search: the returned value together with the
sequence of QPs passed to the evaluator and the `(low, high, best)` states at
every check of the loop condition (the final state included). -/
structure SearchTrace where
  best : Int
  probes : List Int
  states : List SState
deriving DecidableEq

/-- The search loop, instrumented with the probe and state traces.  Its
`best` component coincides with `searchLoop` (see `searchLoopRun_best`). -/
def searchLoopRun (ev : Int → ℚ) (target : ℚ) (low high best : Int) : SearchTrace :=
  if h : 1 < high - low then
    if ev ((low + high) / 2) ≥ target then
      let r := searchLoopRun ev target ((low + high) / 2) high ((low + high) / 2)
      ⟨r.best, ((low + high) / 2) :: r.probes, ⟨low, high, best⟩ :: r.states⟩
    else
      let r := searchLoopRun ev target low ((low + high) / 2) best
      ⟨r.best, ((low + high) / 2) :: r.probes, ⟨low, high, best⟩ :: r.states⟩
  else ⟨best, [], [⟨low, high, best⟩]⟩
termination_by (high - low).toNat
decreasing_by
· omega
· omega

/-- `find_best_qp`, instrumented: the initial probe at `max_qp` is recorded
first, then the loop's probes and states. -/
def find_best_qpRun (ev : Int → ℚ) (min_qp max_qp : Int) (target : ℚ) : SearchTrace :=
  let r := searchLoopRun ev target min_qp max_qp
    (if ev max_qp ≥ target then max_qp else min_qp)
  ⟨r.best, max_qp :: r.probes, r.states⟩

/-- The instrumentation does not change the returned value. -/
theorem searchLoopRun_best (ev : Int → ℚ) (target : ℚ) (low high best : Int) :
    (searchLoopRun ev target low high best).best = searchLoop ev target low high best := by
  rw [searchLoopRun, searchLoop]
  split
  · split
    · exact searchLoopRun_best ev target _ high _
    · exact searchLoopRun_best ev target low _ best
  · rfl
termination_by (high - low).toNat
decreasing_by
· omega
· omega

/-- Invariant of the loop: `best` keeps a score at or above the target, since
it is only ever replaced by a probed midpoint whose score met the target. -/
theorem searchLoop_score (ev : Int → ℚ) (target : ℚ) (low high best : Int)
    (h : ev best ≥ target) : ev (searchLoop ev target low high best) ≥ target := by
  rw [searchLoop]
  split
  · split
    · exact searchLoop_score ev target _ high _ (by assumption)
    · exact searchLoop_score ev target low _ best h
  · exact h
termination_by (high - low).toNat
decreasing_by
· omega
· omega

/-- Range invariant: the result of the loop stays inside the enclosing
`[lo, hi]` box that contains `low`, `high` and `best`. -/
theorem searchLoop_mem (ev : Int → ℚ) (target : ℚ) (lo hi low high best : Int)
    (h1 : lo ≤ low) (h2 : low ≤ high) (h3 : high ≤ hi) (h4 : lo ≤ best) (h5 : best ≤ hi) :
    lo ≤ searchLoop ev target low high best ∧ searchLoop ev target low high best ≤ hi := by
  rw [searchLoop]
  split
  · split
    · exact searchLoop_mem ev target lo hi _ high _ (by omega) (by omega) h3 (by omega) (by omega)
    · exact searchLoop_mem ev target lo hi low _ best h1 (by omega) (by omega) h4 h5
  · exact ⟨h4, h5⟩
termination_by (high - low).toNat
decreasing_by
· omega
· omega

/-- Range invariant for every traced state: `low`, `high` and `best` all stay
inside the enclosing `[lo, hi]` box, with `low ≤ high` and `low ≤ best`
throughout — `low` only ever advances to a midpoint that is simultaneously
assigned to `best`, so `best` can never fall behind `low`. -/
theorem searchLoopRun_states (ev : Int → ℚ) (target : ℚ) (lo hi low high best : Int)
    (h1 : lo ≤ low) (h2 : low ≤ high) (h3 : high ≤ hi) (h4 : low ≤ best) (h5 : best ≤ hi) :
    ∀ s ∈ (searchLoopRun ev target low high best).states,
      lo ≤ s.low ∧ s.low ≤ s.high ∧ s.high ≤ hi ∧ s.low ≤ s.best ∧ s.best ≤ hi := by
  rw [searchLoopRun]
  split
  · split
    · intro s hs
      simp only [List.mem_cons] at hs
      rcases hs with rfl | hs
      · exact ⟨h1, h2, h3, h4, h5⟩
      · exact searchLoopRun_states ev target lo hi _ high _
          (by omega) (by omega) h3 (by omega) (by omega) s hs
    · intro s hs
      simp only [List.mem_cons] at hs
      rcases hs with rfl | hs
      · exact ⟨h1, h2, h3, h4, h5⟩
      · exact searchLoopRun_states ev target lo hi low _ best
          h1 (by omega) (by omega) h4 h5 s hs
  · intro s hs
    simp only [List.mem_singleton] at hs
    subst hs
    exact ⟨h1, h2, h3, h4, h5⟩
termination_by (high - low).toNat
decreasing_by
· omega
· omega

/-! ### Sample-time selection — `ssim_video_optimizer/sampling.py` and the
legacy `src/ssim-video-optimizer.py`, `select_sample_times`

Timestamps (seconds) are modelled as rationals.  The detection collaborators
(`detect_scenes` / `detect_motion`) are abstracted: their output is the
`detected` list parameter.
-/

/-- The spacing filter common to both variants:
```
filtered = []
for t in times:
    if all(abs(t - prev) >= clip_len for prev in filtered):
        filtered.append(t)
        if len(filtered) == count:
            break
```
`acc` is the `filtered` list built so far. -/
def spacingFilterGo (clipLen : ℚ) (count : Nat) : List ℚ → List ℚ → List ℚ
  | [], acc => acc
  | t :: rest, acc =>
    if acc.all (fun prev => |t - prev| ≥ clipLen) then
      if acc.length + 1 = count then acc ++ [t]
      else spacingFilterGo clipLen count rest (acc ++ [t])
    else spacingFilterGo clipLen count rest acc

/-- The package module's post-filter stage (`sampling.py` lines 88–94):
`return (filtered + times)[:count]` — the whole original candidate list is
appended before truncation. -/
def post_filter_pkg (times : List ℚ) (clipLen : ℚ) (count : Nat) : List ℚ :=
  (spacingFilterGo clipLen count times [] ++ times).take count

/-- The legacy script's post-filter stage (`src/ssim-video-optimizer.py`
lines 154–164): top up with candidates `t not in filtered`, in original
order, then `return times[:count]`. -/
def post_filter_legacy (times : List ℚ) (clipLen : ℚ) (count : Nat) : List ℚ :=
  let filtered := spacingFilterGo clipLen count times []
  let topped :=
    if filtered.length < count then
      filtered ++ (times.filter (fun t => decide (t ∉ filtered))).take (count - filtered.length)
    else filtered
  topped.take count

/-- Uniform candidate placement (`sampling.py` lines 79–81):
`span = duration * percent / 100.0`,
`step = max((duration - span) / max(count - 1, 1), 0)`,
`times = [i * step for i in range(count)]`. -/
def uniformTimes (duration percent : ℚ) (count : Nat) : List ℚ :=
  (List.range count).map
    (fun i => i * max ((duration - duration * percent / 100) / (max (count - 1) 1 : Nat)) 0)

/-- Sampling strategy selector. -/
inductive SampleMode
  | uniform
  | scene
  | motion
deriving DecidableEq

/-- `select_sample_times` from `sampling.py`, with the probed duration and the
detector output (`detect_scenes` / `detect_motion`) passed in and `clip_len`
supplied by the caller (as `extract_samples` does):
```
if mode == 'scene': times = detect_scenes(...)
elif mode == 'motion': times = detect_motion(...)
else: times = []
if mode == 'uniform' or not times:
    times = [i * step for i in range(count)]
... spacing filter ...
return (filtered + times)[:count]
``` -/
def select_sample_times (mode : SampleMode) (detected : List ℚ) (duration percent : ℚ)
    (count : Nat) (clipLen : ℚ) : List ℚ :=
  let times := match mode with
    | .scene => detected
    | .motion => detected
    | .uniform => []
  let times := if mode = .uniform ∨ times = [] then uniformTimes duration percent count else times
  post_filter_pkg times clipLen count

/-! ### Audio-option construction — `ssim_video_optimizer/utils.py`,
`build_audio_options` -/

/-- One probed audio stream, as `probe_audio_streams` reports it: `index` is
always present, `codec_name` and `channels` may be absent.  A missing
`codec_name` reads as `''` (`s.get('codec_name', '')`) and a missing or zero
channel count falls back to 2 (`int(s.get('channels') or 2)`). -/
structure AudioStream where
  index : Nat
  codec_name : Option String
  channels : Option Nat
deriving DecidableEq

/-- `build_audio_options` from `utils.py`: non-AAC streams are re-encoded to
AAC at the fixed 192k bitrate, keeping the stream's channel count; AAC
streams are passed through with `copy`. -/
def build_audio_options (streams : List AudioStream) : List String :=
  streams.foldl (fun opts s =>
    let i := s.index
    opts ++
      (if s.codec_name.getD "" ≠ "aac" then
        let ch := if s.channels.getD 0 = 0 then 2 else s.channels.getD 0
        [s!"-c:a:{i}", "aac", s!"-b:a:{i}", "192k", s!"-ac:{i}", toString ch]
      else
        [s!"-c:a:{i}", "copy"])) []

/-- The per-stream option list as the specification describes it: a stream
whose codec is `aac` yields a passthrough, every other stream a re-encode to
AAC at 192k with the stream's channel count, defaulting to 2 when missing or
zero.  Stated separately so that `build_audio_options` can be proved to be
the in-order concatenation of these per-stream options. -/
def audio_stream_options (s : AudioStream) : List String :=
  let i := s.index
  if s.codec_name.getD "" = "aac" then
    [s!"-c:a:{i}", "copy"]
  else
    let ch := if s.channels.getD 0 = 0 then 2 else s.channels.getD 0
    [s!"-c:a:{i}", "aac", s!"-b:a:{i}", "192k", s!"-ac:{i}", toString ch]

/-! ### SSIM report parsing — `ssim_search.py` `measure_ssim_on_sample` and
`encoder.py` `measure_full_ssim`

Both functions scan the scoring collaborator's stderr lines:
```
for line in res.stderr.splitlines():
    if 'All:' in line:
        return float(line.split('All:')[1].split()[0])
return 0.0
```
Text is modelled as `List Char`; `float(...)` is abstracted as a parameter
`parse : List Char → ℚ` applied to the extracted token; `'All:' in line`
coincides with `line.split('All:')` having more than one part, so the split
is the single text primitive embedded. -/

/-- The marker the parser looks for, `'All:'`. -/
def markerAll : List Char := ['A', 'l', 'l', ':']

/-- Python's `line.split('All:')`: split at every non-overlapping, leftmost
occurrence of the marker.  `skip` counts marker characters still to be
swallowed after a match, `acc` the (reversed) current part. -/
def splitAllGo : List Char → Nat → List Char → List (List Char)
  | [], _, acc => [acc.reverse]
  | _ :: rest, skip + 1, acc => splitAllGo rest skip acc
  | c :: rest, 0, acc =>
    if markerAll.isPrefixOf (c :: rest) then
      acc.reverse :: splitAllGo rest 3 []
    else
      splitAllGo rest 0 (c :: acc)

/-- `line.split('All:')` on a whole line. -/
def splitAll (line : List Char) : List (List Char) := splitAllGo line 0 []

/-- Python's whitespace split `s.split()` (splits on whitespace runs,
discarding empty pieces), accumulated in `acc`. -/
def wsTokensGo : List Char → List Char → List (List Char)
  | [], acc => if acc = [] then [] else [acc.reverse]
  | c :: rest, acc =>
    if c.isWhitespace then
      if acc = [] then wsTokensGo rest [] else acc.reverse :: wsTokensGo rest []
    else
      wsTokensGo rest (c :: acc)

/-- `s.split()[0]`: the first whitespace-delimited token of `s`. -/
def firstToken (s : List Char) : List Char := (wsTokensGo s []).headD []

/-- The line scan of `measure_ssim_on_sample` (`ssim_search.py` lines 23–26):
first line containing `'All:'` wins and the token right after the marker is
parsed; no such line yields `0.0`. -/
def measure_ssim_on_sample_score (parse : List Char → ℚ) : List (List Char) → ℚ
  | [] => 0
  | line :: rest =>
    if 1 < (splitAll line).length then
      parse (firstToken ((splitAll line).getD 1 []))
    else
      measure_ssim_on_sample_score parse rest

/-- The line scan of `measure_full_ssim` (`encoder.py` lines 10–14) —
character-for-character the same parsing loop as the per-sample scorer. -/
def measure_full_ssim_score (parse : List Char → ℚ) : List (List Char) → ℚ
  | [] => 0
  | line :: rest =>
    if 1 < (splitAll line).length then
      parse (firstToken ((splitAll line).getD 1 []))
    else
      measure_full_ssim_score parse rest

/-! ### CLI full-file verification loop — `ssim_video_optimizer/cli.py`,
`main`, lines 81–130

```
final_qp = best_qp
prev_file = None
while final_qp >= args.min_qp:
    ... encode at final_qp, measure full_ssim ...
    if full_ssim >= args.ssim:
        final_file = final_temp; break
    prev_file = final_temp
    final_qp -= 1
else:
    logging.warning("Could not meet SSIM target; using sample-based QP=%d", best_qp)
    final_file = prev_file or encode_final(..., qp=best_qp, ...)
dest = f"{base} [h264_nvenc qp {final_qp}]{ext}"
shutil.move(final_file, dest)
```
A rendition is represented by the QP it was encoded at; the whole-file scorer
is abstracted as `score : Int → ℚ`.  `main` returns normally on this path, so
the process exit status is 0.
-/

/-- Outcome of the final-encode loop: `label_qp` is the `final_qp` embedded in
the destination filename, `file_qp` the QP the retained rendition was
actually encoded at, `warned` whether the target-unreachable warning fired. -/
structure FinalOutcome where
  label_qp : Int
  file_qp : Int
  warned : Bool
deriving DecidableEq

/-- The `while final_qp >= min_qp` loop; `prev` is `prev_file` (the QP of the
previously encoded, not yet deleted rendition). -/
def finalEncodeGo (score : Int → ℚ) (target : ℚ) (min_qp best_qp : Int)
    (qp : Int) (prev : Option Int) : FinalOutcome :=
  if h : min_qp ≤ qp then
    if score qp ≥ target then ⟨qp, qp, false⟩
    else finalEncodeGo score target min_qp best_qp (qp - 1) (some qp)
  else ⟨qp, prev.getD best_qp, true⟩
termination_by (qp + 1 - min_qp).toNat
decreasing_by
· omega

/-- The CLI's full-file verification phase, started at the sample-search
result `best_qp` with `prev_file = None`. -/
def cli_final_encode (score : Int → ℚ) (target : ℚ) (min_qp best_qp : Int) : FinalOutcome :=
  finalEncodeGo score target min_qp best_qp best_qp none

/-! ### CLI input validation prologues — `cli.py` lines 45–47 and the legacy
`src/ssim-video-optimizer.py` lines 257–259 -/

/-- Container extensions the legacy script accepts. -/
def supportedExts : List String := ["mkv", "mp4", "mov"]

/-- Observable outcome of a CLI run's input-validation prologue:
the process exit status on the early-exit path (`0` when `main` merely
returns or goes on), and whether execution proceeds into the collaborator
calls (`probe_audio_streams` and everything after it). -/
structure CliRun where
  exit_code : Nat
  collaborators_invoked : Bool
deriving DecidableEq

/-- The legacy script's prologue: `if not os.path.isfile(args.input):
 sys.exit(1)` then `if ext not in ('mkv','mp4','mov'): sys.exit(1)`, with
`ext` the lowercased extension of the input path. -/
def legacy_input_check (input_exists : Bool) (ext : String) : CliRun :=
  if !input_exists then ⟨1, false⟩
  else if ext ∉ supportedExts then ⟨1, false⟩
  else ⟨0, true⟩

/-- The package CLI's prologue (`cli.py` lines 45–47): a missing input is
logged and `main` returns `None` — the console-script wrapper exits with
status 0.  There is no extension check at all, so an existing input of any
extension proceeds into the collaborator calls. -/
def pkg_input_check (input_exists : Bool) : CliRun :=
  if !input_exists then ⟨0, false⟩
  else ⟨0, true⟩

/-! ## Claims about the QP binary search -/

/-- The deterministic mock evaluator of testable property 1:
`score(qp) = 1 − 0.01 × qp`. -/
def mockEval (qp : Int) : ℚ := 1 - (1 / 100) * qp

/-- Claim C2 fails on the code: with the constant evaluator `score ≡ 1`
(so `score(max_qp) = 1 ≥ 0.8 = target`), `search(min_qp = 0, max_qp = 2)`
returns `1`, not `max_qp = 2` — the loop overwrites the seeded `best` with a
probed midpoint that also meets the target. -/
theorem c2_counterexample :
    ((1 : ℚ) ≥ 4 / 5) ∧
      find_best_qp (fun _ => (1 : ℚ)) 0 2 (4 / 5) = 1 ∧
      find_best_qp (fun _ => (1 : ℚ)) 0 2 (4 / 5) ≠ 2 := by
  refine ⟨by norm_num, ?_, ?_⟩ <;> rw [find_best_qp] <;> norm_num <;>
    (repeat (rw [searchLoop]; norm_num))

/-- Claim C2, amended: if the aggregated sample score at `max_qp` meets the
target, the returned QP is not necessarily `max_qp`, but its score always
meets the target — `best` is seeded with `max_qp` and only ever replaced by a
probed midpoint whose score met the target. -/
theorem c2_amended (ev : Int → ℚ) (min_qp max_qp : Int) (target : ℚ)
    (h : ev max_qp ≥ target) :
    ev (find_best_qp ev min_qp max_qp target) ≥ target := by
  rw [find_best_qp]
  split
  · exact searchLoop_score ev target min_qp max_qp max_qp h
  · exact absurd h (by assumption)

/-- Witness for `c2_amended` at the constant evaluator `score ≡ 1`,
`min_qp = 0`, `max_qp = 2`, `target = 4/5`. -/
theorem c2_witness :
    ((fun _ => (1 : ℚ)) (2 : Int) ≥ 4 / 5) ∧
      (fun _ => (1 : ℚ)) (find_best_qp (fun _ => (1 : ℚ)) 0 2 (4 / 5)) ≥ 4 / 5 :=
  ⟨by norm_num, c2_amended (fun _ => (1 : ℚ)) 0 2 (4 / 5) (by norm_num)⟩

/-- Claim C4 fails on the code: on the degenerate range
`min_qp = max_qp = 17` the evaluator is still invoked once — `find_best_qp`
unconditionally probes `max_qp` to seed `best` before the loop (which then
runs zero iterations).  Here the probe list of the run is `[17]`, not `[]`. -/
theorem c4_counterexample :
    (find_best_qpRun (fun _ => (0 : ℚ)) 17 17 1).probes = [17] ∧
      (find_best_qpRun (fun _ => (0 : ℚ)) 17 17 1).probes.length ≠ 0 := by
  rw [find_best_qpRun, searchLoopRun]
  norm_num

/-- Claim C4, amended: for every target and every evaluator,
`search(min_qp = 17, max_qp = 17, target)` returns `17`, but it makes exactly
one evaluator call (the unconditional seed probe at `max_qp`), not zero. -/
theorem c4_amended (ev : Int → ℚ) (target : ℚ) :
    find_best_qp ev 17 17 target = 17 ∧
      (find_best_qpRun ev 17 17 target).probes.length = 1 := by
  constructor
  · rw [find_best_qp, searchLoop]
    norm_num
  · rw [find_best_qpRun, searchLoopRun]
    norm_num

/-- Claim C5: with the mock evaluator `score(qp) = 1 − 0.01·qp`,
`search(10, 40, 0.8)` returns `20` — the largest QP scoring at least `0.8` —
and invokes the evaluator at most `⌈log2 30⌉ + 1 = 6` times (here: the seed
probe at 40 and the midpoints 25, 17, 21, 19, 20). -/
theorem c5_convergence :
    find_best_qp mockEval 10 40 (4 / 5) = 20 ∧
      (find_best_qpRun mockEval 10 40 (4 / 5)).probes.length ≤ 6 := by
  constructor
  · rw [find_best_qp]
    norm_num [mockEval]
    repeat (rw [searchLoop]; norm_num [mockEval])
  · rw [find_best_qpRun]
    norm_num [mockEval]
    repeat (rw [searchLoopRun]; norm_num [mockEval])

/-- Claim C6 fails on the code as a global invariant: with the non-monotone
evaluator scoring `1` at QP 4 and `0` elsewhere (`target = 1/2`,
`min_qp = 0`, `max_qp = 4`), the search seeds `best = 4`, then shrinks `high`
to `2`; the traced states are `(0,4,4), (0,2,4), (0,1,4)`, and in the second
one `best = 4 > 2 = high` — `low ≤ best ≤ high` does not hold there. -/
theorem c6_counterexample :
    (find_best_qpRun (fun qp => if qp = 4 then (1 : ℚ) else 0) 0 4 (1 / 2)).states =
        [⟨0, 4, 4⟩, ⟨0, 2, 4⟩, ⟨0, 1, 4⟩] ∧
      ¬ ((⟨0, 2, 4⟩ : SState).best ≤ (⟨0, 2, 4⟩ : SState).high) := by
  constructor
  · rw [find_best_qpRun]
    norm_num
    repeat (rw [searchLoopRun]; norm_num)
  · norm_num

/-- Claim C6, amended: for `min_qp ≤ max_qp`, every traced state satisfies
`min_qp ≤ low ≤ high ≤ max_qp` and `low ≤ best ≤ max_qp`, and the returned
best lies in `[min_qp, max_qp]`; only the upper per-step bound `best ≤ high`
can fail for a non-monotone evaluator, since `high` may shrink below a
previously seeded `best`. -/
theorem c6_amended (ev : Int → ℚ) (target : ℚ) (min_qp max_qp : Int)
    (h : min_qp ≤ max_qp) :
    (∀ s ∈ (find_best_qpRun ev min_qp max_qp target).states,
        min_qp ≤ s.low ∧ s.low ≤ s.high ∧ s.high ≤ max_qp ∧
          s.low ≤ s.best ∧ s.best ≤ max_qp) ∧
      min_qp ≤ find_best_qp ev min_qp max_qp target ∧
        find_best_qp ev min_qp max_qp target ≤ max_qp := by
  constructor
  · rw [find_best_qpRun]
    refine searchLoopRun_states ev target min_qp max_qp min_qp max_qp _ le_rfl h le_rfl ?_ ?_
    · split <;> omega
    · split <;> omega
  · rw [find_best_qp]
    refine searchLoop_mem ev target min_qp max_qp min_qp max_qp _ le_rfl h le_rfl ?_ ?_
    · split <;> omega
    · split <;> omega

/-- Witness for `c6_amended` at the constant evaluator, `min_qp = 19`,
`max_qp = 32`. -/
theorem c6_witness :
    (19 : Int) ≤ 32 ∧
      (19 ≤ find_best_qp (fun _ => (0 : ℚ)) 19 32 1 ∧
        find_best_qp (fun _ => (0 : ℚ)) 19 32 1 ≤ 32) :=
  ⟨by norm_num, (c6_amended (fun _ => (0 : ℚ)) 1 19 32 (by norm_num)).2⟩

/-! ## Claims about the full-file verification loop and the CLI prologue -/

/-- Claim C1 is right about the intent but the code slips: when the full-file
score never meets the target (here `score ≡ 0 < 1 = target`, `min_qp = 19`,
sample-search `best_qp = 21`), `cli.py` logs the warning
`"Could not meet SSIM target; using sample-based QP=%d" % best_qp` — its own
statement of the documented fallback — and exits successfully, but the file
it actually retains is `prev_file`, the rendition encoded at `min_qp = 19`
from the last loop iteration, and the destination name even embeds
`final_qp = min_qp − 1 = 18`, a QP that was never encoded.  The retained
artifact is not a rendition at `starting_qp = 21`. -/
theorem c1_code_bug :
    cli_final_encode (fun _ => (0 : ℚ)) 1 19 21 =
        ⟨18, 19, true⟩ ∧
      (cli_final_encode (fun _ => (0 : ℚ)) 1 19 21).file_qp ≠ 21 := by
  have h : cli_final_encode (fun _ => (0 : ℚ)) 1 19 21 = ⟨18, 19, true⟩ := by
    rw [cli_final_encode]
    repeat (rw [finalEncodeGo]; norm_num)
  exact ⟨h, by rw [h]; norm_num⟩

/-- Claim C7: when the scene or motion detector returns no timestamps, the
selector's output coincides, element for element, with the uniform-mode
selector on the same duration, percent, count and clip length (in uniform
mode the detector is never consulted, so its output is irrelevant there). -/
theorem c7_fallback (detected : List ℚ) (duration percent : ℚ) (count : Nat) (clipLen : ℚ) :
    select_sample_times SampleMode.scene [] duration percent count clipLen =
        select_sample_times SampleMode.uniform detected duration percent count clipLen ∧
      select_sample_times SampleMode.motion [] duration percent count clipLen =
        select_sample_times SampleMode.uniform detected duration percent count clipLen := by
  constructor <;> simp [select_sample_times]

/-- Claim C8 fails on the package CLI: on a missing input file, `cli.py` logs
the error and returns from `main` before any collaborator is invoked — but a
plain return means the process exits with status 0, not non-zero (and the
package CLI performs no extension check at all). -/
theorem c8_counterexample :
    (pkg_input_check false).collaborators_invoked = false ∧
      (pkg_input_check false).exit_code = 0 := by
  decide

/-- Claim C8, amended: the legacy script exits with status 1 before invoking
any collaborator whenever the input is missing or its extension is not one of
`mkv`/`mp4`/`mov`; the package CLI also stops before any collaborator on a
missing input, but its exit status is 0, and it proceeds regardless of the
extension when the input exists. -/
theorem c8_amended :
    (∀ (ex : Bool) (ext : String), ex = false ∨ ext ∉ supportedExts →
        legacy_input_check ex ext = ⟨1, false⟩) ∧
      (pkg_input_check false = ⟨0, false⟩) ∧
      (pkg_input_check true = ⟨0, true⟩) := by
  refine ⟨?_, by decide, by decide⟩
  intro ex ext h
  rcases h with rfl | h
  · rfl
  · cases ex
    · rfl
    · simp [legacy_input_check, h]

/-- Witness for `c8_amended`: a present file with the unsupported extension
`avi` makes the legacy script exit 1 without invoking collaborators. -/
theorem c8_witness :
    ((true : Bool) = false ∨ "avi" ∉ supportedExts) ∧
      legacy_input_check true "avi" = ⟨1, false⟩ :=
  ⟨Or.inr (by decide), c8_amended.1 true "avi" (Or.inr (by decide))⟩

/-! ## Claim about the audio-option construction -/

/-- Folding an append-style step over a list is the concatenation of the
per-element chunks. -/
theorem foldlAppendJoin {α : Type} (f : α → List String) (g : List String → α → List String)
    (hg : ∀ acc s, g acc s = acc ++ f s) (l : List α) (init : List String) :
    l.foldl g init = init ++ (l.map f).flatten := by
  induction l generalizing init with
  | nil => simp
  | cons a l ih => simp only [List.foldl_cons, hg, List.map_cons, List.flatten, ih,
      List.append_assoc]

/-- Claim C10: `build_audio_options` is the in-order concatenation of the
per-stream options: `copy` for an `aac` stream, otherwise re-encode to AAC at
the fixed `192k` with the stream's channel count (defaulting to 2 when the
count is missing or zero). -/
theorem c10_audio_options (streams : List AudioStream) :
    build_audio_options streams = (streams.map audio_stream_options).flatten := by
  rw [build_audio_options, foldlAppendJoin audio_stream_options]
  · simp
  · intro acc s
    rw [audio_stream_options]
    by_cases h : s.codec_name.getD "" = "aac" <;> simp [h]

/-! ## Claim about the SSIM report parsing -/

/-- Claim C9: for both the per-sample scorer and the full-file scorer, if no
line of the collaborator's diagnostic output contains the `All:` marker the
returned score is exactly `0.0`; and if some line does, the returned score is
the parse of the first whitespace token following the marker in the first
such line. -/
theorem c9_parse (parse : List Char → ℚ) :
    (∀ lines : List (List Char), (∀ l ∈ lines, ¬ 1 < (splitAll l).length) →
        measure_ssim_on_sample_score parse lines = 0 ∧
          measure_full_ssim_score parse lines = 0) ∧
      ∀ (pre post : List (List Char)) (line : List Char),
        (∀ l ∈ pre, ¬ 1 < (splitAll l).length) → 1 < (splitAll line).length →
          measure_ssim_on_sample_score parse (pre ++ line :: post) =
              parse (firstToken ((splitAll line).getD 1 [])) ∧
            measure_full_ssim_score parse (pre ++ line :: post) =
              parse (firstToken ((splitAll line).getD 1 [])) := by
  constructor
  · intro lines h
    induction lines with
    | nil => exact ⟨rfl, rfl⟩
    | cons l rest ih =>
      have hl := h l (List.mem_cons_self l rest)
      have hrest := ih (fun l' hl' => h l' (List.mem_cons_of_mem l hl'))
      rw [measure_ssim_on_sample_score, measure_full_ssim_score, if_neg hl, if_neg hl]
      exact hrest
  · intro pre post line hpre hline
    induction pre with
    | nil =>
      rw [List.nil_append, measure_ssim_on_sample_score, measure_full_ssim_score,
        if_pos hline, if_pos hline]
      exact ⟨rfl, rfl⟩
    | cons l rest ih =>
      have hl := hpre l (List.mem_cons_self l rest)
      have hrest := ih (fun l' hl' => hpre l' (List.mem_cons_of_mem l hl'))
      rw [List.cons_append, measure_ssim_on_sample_score, measure_full_ssim_score,
        if_neg hl, if_neg hl]
      exact hrest

/-- Witness for `c9_parse`: on the stderr lines `"frame=12"` and
`"[Parsed_ssim] SSIM All: 0.97 (15.2)"`, both scorers return the parse of the
token `0.97`; and on `["frame=12"]` alone, both return `0`. -/
theorem c9_witness :
    measure_ssim_on_sample_score (fun _ => (97 : ℚ) / 100)
        ["frame=12".toList, "[Parsed_ssim] SSIM All: 0.97 (15.2)".toList] = 97 / 100 ∧
      measure_full_ssim_score (fun _ => (97 : ℚ) / 100)
        ["frame=12".toList, "[Parsed_ssim] SSIM All: 0.97 (15.2)".toList] = 97 / 100 ∧
      measure_ssim_on_sample_score (fun _ => (97 : ℚ) / 100) ["frame=12".toList] = 0 ∧
      measure_full_ssim_score (fun _ => (97 : ℚ) / 100) ["frame=12".toList] = 0 := by
  have h2 := (c9_parse (fun _ => (97 : ℚ) / 100)).2 ["frame=12".toList]
      [] "[Parsed_ssim] SSIM All: 0.97 (15.2)".toList (by decide) (by decide)
  have h1 := (c9_parse (fun _ => (97 : ℚ) / 100)).1 ["frame=12".toList] (by decide)
  exact ⟨h2.1, h2.2, h1.1, h1.2⟩

/-! ## Claim about the spacing filter and its top-up -/

/-- The spacing filter only keeps candidates, in order: its result is a
sublist of the already-kept prefix followed by the remaining candidates. -/
theorem spacingFilterGo_sublist (clipLen : ℚ) (count : Nat) :
    ∀ (times acc : List ℚ), List.Sublist (spacingFilterGo clipLen count times acc) (acc ++ times) := by
  intro times
  induction times with
  | nil => intro acc; simp [spacingFilterGo]
  | cons t rest ih =>
    intro acc
    rw [spacingFilterGo]
    split
    · split
      · exact (List.Sublist.cons₂ t (List.nil_sublist rest)).append_left acc
      · simpa [List.append_assoc] using ih (acc ++ [t])
    · exact (ih acc).trans ((List.sublist_cons_self t rest).append_left acc)

/-- Claim C3 fails on the package module: its top-up appends the whole
original candidate list (`(filtered + times)[:count]`), kept candidates
included.  With the pairwise-distinct candidates `[0, 1]`, `clip_len = 5` and
`count = 2`, only `0` survives the spacing filter and the result is
`[0, 0]` — the timestamp `0` appears twice. -/
theorem c3_counterexample :
    ([0, 1] : List ℚ).Nodup ∧
      post_filter_pkg [0, 1] 5 2 = [0, 0] ∧
      ¬ (post_filter_pkg [0, 1] 5 2).Nodup := by
  refine ⟨by decide, ?_, ?_⟩ <;>
    norm_num [post_filter_pkg, spacingFilterGo, List.Nodup]

/-- Claim C3, amended: the legacy script's selector tops up only with
not-already-kept candidates in original order, so with pairwise-distinct
candidates numbering at least `count` it returns exactly `count`
pairwise-distinct timestamps; the package module's selector appends the whole
original list instead — it also returns exactly `count` timestamps whenever
the candidates number at least `count`, but it can repeat a timestamp (see
the counterexample). -/
theorem c3_amended :
    (∀ (times : List ℚ) (clipLen : ℚ) (count : Nat), times.Nodup → count ≤ times.length →
        (post_filter_legacy times clipLen count).length = count ∧
          (post_filter_legacy times clipLen count).Nodup) ∧
      ∀ (times : List ℚ) (clipLen : ℚ) (count : Nat), count ≤ times.length →
        (post_filter_pkg times clipLen count).length = count := by
  constructor
  · intro times clipLen count hnd hc
    have hF : List.Sublist (spacingFilterGo clipLen count times []) times := by
      simpa using spacingFilterGo_sublist clipLen count times []
    set F := spacingFilterGo clipLen count times [] with hFdef
    have hFnd : F.Nodup := hF.nodup hnd
    set E := times.filter (fun t => decide (t ∉ F)) with hEdef
    -- the candidates kept by the filter that are also in `F` number at most
    -- `F.length`, hence the top-up pool `E` is large enough
    have hsplit : times.length =
        E.length + (times.filter (fun t => !decide (t ∉ F))).length :=
      List.length_eq_length_filter_add _
    have hGsub : (times.filter (fun t => !decide (t ∉ F))) ⊆ F := by
      intro x hx
      have hx' := List.of_mem_filter hx
      simp only [Bool.not_eq_true', decide_eq_false_iff_not, not_not] at hx'
      exact hx'
    have hGlen : (times.filter (fun t => !decide (t ∉ F))).length ≤ F.length :=
      (List.subperm_of_subset (hnd.filter _) hGsub).length_le
    have hElen : count - F.length ≤ E.length := by omega
    have hdisj : F.Disjoint (E.take (count - F.length)) := by
      intro x hxF hxE
      have hxE' := List.of_mem_filter (List.take_subset _ _ hxE)
      simp only [decide_eq_true_eq] at hxE'
      exact hxE' hxF
    have hEnd : (E.take (count - F.length)).Nodup :=
      (List.take_sublist _ _).nodup (hnd.filter _)
    constructor
    · rw [post_filter_legacy]
      simp only [← hFdef, ← hEdef]
      split
      · simp only [List.length_take, List.length_append]
        omega
      · simp only [List.length_take]
        omega
    · rw [post_filter_legacy]
      simp only [← hFdef, ← hEdef]
      split
      · exact (List.take_sublist _ _).nodup (hFnd.append hEnd hdisj)
      · exact (List.take_sublist _ _).nodup hFnd
  · intro times clipLen count hc
    rw [post_filter_pkg]
    simp only [List.length_take, List.length_append]
    omega

/-- Witness for `c3_amended`: the distinct candidates `[0, 10]` with
`clip_len = 5`, `count = 2` pass both spacing and top-up, giving two distinct
timestamps in the legacy selector and two timestamps in the package one. -/
theorem c3_witness :
    ([0, 10] : List ℚ).Nodup ∧ 2 ≤ ([0, 10] : List ℚ).length ∧
      ((post_filter_legacy [0, 10] 5 2).length = 2 ∧
        (post_filter_legacy [0, 10] 5 2).Nodup) ∧
      (post_filter_pkg [0, 10] 5 2).length = 2 :=
  ⟨by decide, by decide,
    c3_amended.1 [0, 10] 5 2 (by decide) (by decide),
    c3_amended.2 [0, 10] 5 2 (by decide)⟩

end SsimOpt
